import Mathlib

/-!
Verification of the folder-year-organiser repository.

The repository contains two variant scripts:
* src/disk_date_separator.py   : `organize_files` plus `cleanup_empty_dirs`
  (anchor = the source directory itself; snapshot walk with top-level
  year-directory pruning; abort when the directory is missing).
* src/folder_year_organiser.py : `move_files`
  (anchor = the parent of the source directory; lazy interleaved walk,
  no pruning, no existence check, optional copy mode).

The filesystem is embedded shallowly: a path is its list of components
(all paths are kept canonical/absolute, mirroring the scripts' use of
Path.resolve), a regular file is a path together with the year component
of its best-effort creation timestamp (`stat = none` models an
unreadable-metadata / vanished file, i.e. os.stat raising), and the set
of directories is kept explicitly so that directory creation and removal
are observable.  Console output is modelled as a list of events.
-/

/-- A canonical absolute path, as its list of components. -/
abbrev FPath := List String

/-- A regular file: its path and the year of its creation timestamp as
returned by the Dater (`get_file_creation_date`); `none` models an
unreadable stat (the Python code raises, the caller counts an error). -/
structure FileRec where
  path : FPath
  stat : Option Nat
deriving DecidableEq, Repr

/-- The filesystem state: regular files and the set of existing
directories. -/
structure FS where
  files : List FileRec
  dirs : List FPath
deriving DecidableEq, Repr

/-- Console/status output, one constructor per kind of line the scripts
print (plus bookkeeping markers for walk steps). -/
inductive Event where
  | skipYearDir : String → Event
  | discover : FPath → Event
  | scanDir : FPath → Event
  | proc : FPath → Event
  | moveLine : FPath → FPath → Event
  | dryLine : FPath → FPath → Event
  | errLine : FPath → Event
  | removeDirLine : FPath → Event
deriving DecidableEq, Repr

/-- Python `d.isdigit() and len(d) == 4` on a directory name. -/
def isYearName (s : String) : Bool :=
  s.toList.all Char.isDigit && s.length == 4

/-- Last component of a path (basename). -/
def lastName (p : FPath) : String := p.getLastD ""

/-- Strictly-inside test: `p` lies somewhere below directory `d`. -/
def underDir (d p : FPath) : Bool :=
  decide (d.length < p.length) && p.take d.length == d

/-- Whether a path below `source` sits inside a directory that the
scanner of disk_date_separator prunes: its first component below the
source is a 4-digit name and there is at least one further component
(so the 4-digit entry is a directory, not the file itself). -/
def prunedTop (source p : FPath) : Bool :=
  match p.drop source.length with
  | d :: _ :: _ => isYearName d
  | _ => false

/-- Destination of the Remapper, shared by both scripts:
anchor / str(year) / (path relative to the anchor).  disk_date_separator
passes the source directory as anchor, folder_year_organiser passes the
source directory's parent. -/
def destPath (anchor : FPath) (year : Nat) (p : FPath) : FPath :=
  anchor ++ [toString year] ++ p.drop anchor.length

/-- The file stored at path `p`, if any. -/
def FS.fileAt (fs : FS) (p : FPath) : Option FileRec :=
  fs.files.find? (fun f => f.path == p)

/-- Whether a directory exists at `p`. -/
def FS.isDirAt (fs : FS) (p : FPath) : Bool :=
  fs.dirs.contains p

/-- All nonempty prefixes of a path, shortest first (the chain of
directories `mkdir(parents=True)` has to create). -/
def pathAncestors (p : FPath) : List FPath :=
  (List.range p.length).map (fun k => p.take (k + 1))

/-- Python `d.mkdir(parents=True, exist_ok=True)`: create `d` and all
missing ancestors. -/
def FS.mkdirParents (fs : FS) (d : FPath) : FS :=
  { fs with dirs := fs.dirs ++ (pathAncestors d).filter (fun a => !fs.dirs.contains a) }

/-- Delete the file stored at `p` (all records with that path). -/
def FS.removeFileAt (fs : FS) (p : FPath) : FS :=
  { fs with files := fs.files.filter (fun f => f.path != p) }

/-- Write a file record at `p`, replacing any existing file there
(os.rename / copy2 silently overwrite an existing regular file). -/
def FS.putFile (fs : FS) (p : FPath) (stat : Option Nat) : FS :=
  { fs with files := (fs.files.filter (fun f => f.path != p)) ++ [⟨p, stat⟩] }

/-- Python `shutil.move(src, dst)` on one volume.  If `dst` is an
existing directory the real destination is `dst/basename(src)` and the
call raises when that name is taken; otherwise an existing regular file
at `dst` is silently replaced by `os.rename`.  `none` models the raised
exception. -/
def FS.moveFile (fs : FS) (src dst : FPath) : Option FS :=
  match fs.fileAt src with
  | none => none
  | some f =>
    if fs.isDirAt dst then
      let real := dst ++ [lastName src]
      if (fs.fileAt real).isSome || fs.isDirAt real then none
      else some ((fs.removeFileAt src).putFile real f.stat)
    else
      some ((fs.removeFileAt src).putFile dst f.stat)

/-- Python `shutil.copy2(src, dst)`: like move it redirects into an
existing directory, but it overwrites an existing regular file at the
real destination without complaint; copying onto a directory raises.
The source file is left untouched and metadata is preserved. -/
def FS.copyFile (fs : FS) (src dst : FPath) : Option FS :=
  match fs.fileAt src with
  | none => none
  | some f =>
    let real := if fs.isDirAt dst then dst ++ [lastName src] else dst
    if fs.isDirAt real then none
    else some (fs.putFile real f.stat)

/-- The Dater (`get_file_creation_date` / `file_creation_date`): the
year of the file's creation timestamp, `none` when os.stat raises. -/
def get_file_creation_date (fs : FS) (p : FPath) : Option Nat :=
  match fs.fileAt p with
  | none => none
  | some f => f.stat

/-- Running state of disk_date_separator's per-file loop: the
filesystem, the two counters of the script and the console output. -/
structure OrgState where
  fs : FS
  moved_count : Nat
  error_count : Nat
  events : List Event
deriving DecidableEq, Repr

/-- Lines 109-126 of disk_date_separator.py, acting on the already
computed source and destination paths: skip when they are equal,
otherwise print the status line and (outside dry-run) create the
destination's parents and move, counting a raised move as an error. -/
def relocate (dryRun : Bool) (st : OrgState) (p dst : FPath) : OrgState :=
  if p = dst then st
  else if dryRun then
    { st with moved_count := st.moved_count + 1,
              events := st.events ++ [Event.moveLine p dst] }
  else
    let fsm := st.fs.mkdirParents dst.dropLast
    match fsm.moveFile p dst with
    | some fs2 =>
        { st with fs := fs2, moved_count := st.moved_count + 1,
                  events := st.events ++ [Event.moveLine p dst] }
    | none =>
        { st with fs := fsm, error_count := st.error_count + 1,
                  events := st.events ++ [Event.moveLine p dst, Event.errLine p] }

/-- One iteration of disk_date_separator's processing loop: stat the
file (an unreadable stat is caught and counted), compute the
destination under the source-directory anchor and relocate. -/
def processOne (source : FPath) (dryRun : Bool) (st : OrgState) (p : FPath) : OrgState :=
  match get_file_creation_date st.fs p with
  | none =>
      { st with error_count := st.error_count + 1,
                events := st.events ++ [Event.errLine p] }
  | some year => relocate dryRun st p (destPath source year p)

/-- The snapshot the scanner of disk_date_separator collects before any
move: every file below the source, except those inside a top-level
4-digit directory (os.walk with the pruned dirs removed in place). -/
def filesToProcess (fs : FS) (source : FPath) : List FPath :=
  (fs.files.filter (fun f => underDir source f.path && !prunedTop source f.path)).map
    (fun f => f.path)

/-- Names of the top-level 4-digit directories the scanner skips, one
diagnostic each. -/
def skippedYearDirs (fs : FS) (source : FPath) : List String :=
  (fs.dirs.filter (fun d =>
    d.length == source.length + 1 && d.take source.length == source
      && isYearName (lastName d))).map lastName

/-- Guard of cleanup_empty_dirs: never touch the root itself nor a
direct child of the root whose name is a 4-digit year. -/
def protectedDir (root d : FPath) : Bool :=
  d == root || (d.length == root.length + 1 && isYearName (lastName d))

/-- Python `not os.listdir(d)`: no direct child file or directory. -/
def listdirIsEmpty (fs : FS) (d : FPath) : Bool :=
  fs.files.all (fun f => !(f.path.length == d.length + 1 && f.path.take d.length == d))
    && fs.dirs.all (fun e => !(e.length == d.length + 1 && e.take d.length == d))

/-- One step of cleanup_empty_dirs: skip protected directories, remove
`d` when os.listdir finds it empty, and silently keep it otherwise (the
except-OSError-pass of the script). -/
def rmdirStep (root : FPath) (acc : FS × List Event) (d : FPath) : FS × List Event :=
  if protectedDir root d then acc
  else if listdirIsEmpty acc.1 d then
    (⟨acc.1.files, acc.1.dirs.filter (fun e => e != d)⟩,
      acc.2 ++ [Event.removeDirLine d])
  else acc

/-- The bottom-up visiting order of `os.walk(root, topdown=False)`
restricted to the directories strictly below the root: descendants are
visited before their ancestors, realised here by sorting on decreasing
path length (the root itself is skipped by the `continue` in the
script, hence excluded). -/
def cleanupOrder (fs : FS) (root : FPath) : List FPath :=
  (fs.dirs.filter (fun d => underDir root d)).mergeSort
    (fun a b => Nat.ble b.length a.length)

/-- Lines 138-160 of disk_date_separator.py (`cleanup_empty_dirs`). -/
def cleanup_empty_dirs (fs : FS) (root : FPath) : FS × List Event :=
  (cleanupOrder fs root).foldl (rmdirStep root) (fs, [])

/-- Result of a whole disk_date_separator run: final filesystem, the
two counters, the console output and the process exit code. -/
structure OrgResult where
  fs : FS
  moved_count : Nat
  error_count : Nat
  events : List Event
  exitCode : Nat
deriving DecidableEq, Repr

/-- Lines 50-135 of disk_date_separator.py (`organize_files`): abort
with exit code 1 when the argument is missing or not a directory;
otherwise snapshot the tree (pruning top-level year directories with a
diagnostic each), process every snapshotted file, and outside dry-run
prune the directories that became empty. -/
def organize_files (fs0 : FS) (sourceDir : FPath) (dryRun : Bool) : OrgResult :=
  if !(fs0.isDirAt sourceDir || (fs0.fileAt sourceDir).isSome) then
    ⟨fs0, 0, 0, [Event.errLine sourceDir], 1⟩
  else if !fs0.isDirAt sourceDir then
    ⟨fs0, 0, 0, [Event.errLine sourceDir], 1⟩
  else
    let skips := skippedYearDirs fs0 sourceDir
    let todo := filesToProcess fs0 sourceDir
    let st0 : OrgState := ⟨fs0, 0, 0, skips.map Event.skipYearDir ++ todo.map Event.discover⟩
    let st := todo.foldl (processOne sourceDir dryRun) st0
    if dryRun then ⟨st.fs, st.moved_count, st.error_count, st.events, 0⟩
    else
      let c := cleanup_empty_dirs st.fs sourceDir
      ⟨c.1, st.moved_count, st.error_count, st.events ++ c.2, 0⟩

/-- Running state of folder_year_organiser's walk. -/
structure MovState where
  fs : FS
  moved_count : Nat
  error_count : Nat
  events : List Event
deriving DecidableEq, Repr

/-- Lines 69-107 of folder_year_organiser.py: process one discovered
file.  The anchor is the parent of the source directory; in dry-run a
successfully dated file only prints and increments no counter; in copy
mode shutil.copy2 is used, otherwise shutil.move; every raised
exception is caught and counted. -/
def movProcessOne (anchor : FPath) (copy dryRun : Bool) (st : MovState) (p : FPath) : MovState :=
  match get_file_creation_date st.fs p with
  | none =>
      { st with error_count := st.error_count + 1,
                events := st.events ++ [Event.proc p, Event.errLine p] }
  | some year =>
    let dst := destPath anchor year p
    if dryRun then
      { st with events := st.events ++ [Event.proc p, Event.dryLine p dst] }
    else
      let fsm := st.fs.mkdirParents dst.dropLast
      match (if copy then fsm.copyFile p dst else fsm.moveFile p dst) with
      | some fs2 =>
          { st with fs := fs2, moved_count := st.moved_count + 1,
                    events := st.events ++ [Event.proc p, Event.moveLine p dst] }
      | none =>
          { st with fs := fsm, error_count := st.error_count + 1,
                    events := st.events ++ [Event.proc p, Event.moveLine p dst, Event.errLine p] }

/-- Direct child files of directory `d` in the current tree (the file
half of one os.scandir). -/
def childFilePaths (fs : FS) (d : FPath) : List FPath :=
  (fs.files.filter (fun f =>
    f.path.length == d.length + 1 && f.path.take d.length == d)).map (fun f => f.path)

/-- Direct child directories of `d` in the current tree (the directory
half of one os.scandir). -/
def childDirs (fs : FS) (d : FPath) : List FPath :=
  fs.dirs.filter (fun e => e.length == d.length + 1 && e.take d.length == d)

/-- The lazy top-down os.walk of folder_year_organiser interleaved with
processing: visiting a directory scans its current entries, processes
the files found and only then recurses into the subdirectories captured
by that scan.  The fuel bounds the recursion depth; a missing directory
scans as empty, matching os.walk swallowing the scandir error. -/
def movWalk (anchor : FPath) (copy dryRun : Bool) : Nat → MovState → FPath → MovState
  | 0, st, _ => st
  | fuel + 1, st, d =>
    let fils := childFilePaths st.fs d
    let subs := childDirs st.fs d
    let st1 := { st with events := st.events ++ [Event.scanDir d] }
    let st2 := fils.foldl (movProcessOne anchor copy dryRun) st1
    subs.foldl (fun s e => movWalk anchor copy dryRun fuel s e) st2

/-- Lines 50-109 of folder_year_organiser.py (`move_files`): walk the
source directory and process every file against the parent-of-source
anchor.  There is no existence check, no pruning and no snapshot.  The
full-path flag only changes how the status lines render and is carried
for completeness. -/
def move_files (fuel : Nat) (fs0 : FS) (sourceDir : FPath) (copy dryRun _fullPath : Bool) :
    MovState :=
  movWalk sourceDir.dropLast copy dryRun fuel ⟨fs0, 0, 0, []⟩ sourceDir

/-- The script body of folder_year_organiser.py: run move_files, print
the summary, and fall off the end of the script — the exit status is
always 0, whatever happened. -/
def folder_year_organiser_main (fuel : Nat) (fs0 : FS) (sourceDir : FPath)
    (copy dryRun fullPath : Bool) : MovState × Nat :=
  (move_files fuel fs0 sourceDir copy dryRun fullPath, 0)

/-- Number of per-file processing attempts recorded in a trace. -/
def procCount (evs : List Event) : Nat :=
  (evs.filter (fun e => match e with | Event.proc _ => true | _ => false)).length

/-- Whether a file's year renders as a 4-digit string (true for every
year between 1000 and 9999, i.e. every year datetime produces for a
realistic timestamp; an unreadable stat is vacuously fine). -/
def yearOk (f : FileRec) : Bool :=
  match f.stat with
  | none => true
  | some y => isYearName (toString y)

/-- Concrete tree: a source directory that is itself named `2020`
containing one file created in 2020. -/
def fsNested : FS := ⟨[⟨["p", "2020", "a"], some 2020⟩], [["p"], ["p", "2020"]]⟩

/-- Concrete tree: a source directory `s` with a single file from 2020. -/
def fsPlain : FS := ⟨[⟨["s", "a"], some 2020⟩], [["s"]]⟩

/-- Concrete tree: the only file sits inside a top-level `2020`
directory of the source `s`. -/
def fsYearTop : FS := ⟨[⟨["s", "2020", "a"], some 2020⟩], [["s"], ["s", "2020"]]⟩

/-- Concrete tree: two files in two sibling subdirectories of `s`. -/
def fsTwoDirs : FS :=
  ⟨[⟨["s", "d1", "a"], some 2020⟩, ⟨["s", "d2", "b"], some 2021⟩],
    [["s"], ["s", "d1"], ["s", "d2"]]⟩

/-- Concrete tree with no directory named `missing`. -/
def fsNoDir : FS := ⟨[⟨["x", "f"], some 2000⟩], [["x"]]⟩

/-- Concrete tree for reconciliation: one file, a protected year
directory, and an empty removable directory. -/
def fsCleanup : FS :=
  ⟨[⟨["s", "a"], some 2020⟩], [["s"], ["s", "2020"], ["s", "leftover"]]⟩

/-- Concrete relocation state whose destination `s/2020/a` is already
occupied by an older file. -/
def stOccupied : OrgState :=
  ⟨⟨[⟨["s", "a"], some 2020⟩, ⟨["s", "2020", "a"], some 1999⟩], [["s"], ["s", "2020"]]⟩,
    0, 0, []⟩

/-- Whether an event marks a scanner discovery. -/
def isDiscoverEv : Event → Bool
  | Event.discover _ => true
  | _ => false

/-! ### Basic lemmas -/

/-- The computed destination is never the source path itself: it is one
component longer. -/
theorem destPath_ne (a : FPath) (y : Nat) (p : FPath) : destPath a y p ≠ p := by
  intro h
  have hl := congrArg List.length h
  simp [destPath] at hl
  omega

/-- Dropping the anchor and the year component of a destination yields
exactly the original anchor-relative path. -/
theorem destPath_drop (a : FPath) (y : Nat) (p : FPath) :
    (destPath a y p).drop (a.length + 1) = p.drop a.length := by
  have h : destPath a y p = (a ++ [toString y]) ++ p.drop a.length := by
    simp [destPath]
  have h2 : (a ++ [toString y]).length = a.length + 1 := by simp
  rw [h, ← h2, List.drop_left]

/-- Folding preserves any invariant each step preserves. -/
theorem foldl_pres {α β : Type} (f : α → β → α) (P : α → Prop)
    (h : ∀ a b, P a → P (f a b)) : ∀ (l : List β) (a : α), P a → P (l.foldl f a) := by
  intro l
  induction l with
  | nil => intro a ha; exact ha
  | cons x xs ih => intro a ha; exact ih (f a x) (h a x ha)

/-- Dry-run relocation leaves the filesystem untouched. -/
theorem relocate_dry_fs (st : OrgState) (p dst : FPath) :
    (relocate true st p dst).fs = st.fs := by
  unfold relocate
  by_cases h : p = dst <;> simp [h]

/-- One dry-run iteration of disk_date_separator leaves the filesystem
untouched. -/
theorem processOne_dry_fs (src : FPath) (st : OrgState) (p : FPath) :
    (processOne src true st p).fs = st.fs := by
  unfold processOne
  cases h : get_file_creation_date st.fs p <;> simp [relocate_dry_fs]

/-- One dry-run iteration of folder_year_organiser leaves the
filesystem untouched. -/
theorem movProcessOne_dry_fs (anchor : FPath) (c : Bool) (st : MovState) (p : FPath) :
    (movProcessOne anchor c true st p).fs = st.fs := by
  unfold movProcessOne
  cases h : get_file_creation_date st.fs p <;> simp [h]

/-- The whole dry-run walk of folder_year_organiser leaves the
filesystem untouched, whatever the fuel. -/
theorem movWalk_dry_fs (anchor : FPath) (c : Bool) :
    ∀ (fuel : Nat) (st : MovState) (d : FPath), (movWalk anchor c true fuel st d).fs = st.fs := by
  intro fuel
  induction fuel with
  | zero => intro st d; rfl
  | succ n ih =>
    intro st d
    simp only [movWalk]
    have h1 : ∀ (l : List FPath) (s : MovState),
        (l.foldl (movProcessOne anchor c true) s).fs = s.fs := by
      intro l
      induction l with
      | nil => intro s; rfl
      | cons x xs ihx => intro s; rw [List.foldl_cons, ihx, movProcessOne_dry_fs]
    have h2 : ∀ (l : List FPath) (s : MovState),
        (l.foldl (fun s e => movWalk anchor c true n s e) s).fs = s.fs := by
      intro l
      induction l with
      | nil => intro s; rfl
      | cons x xs ihx => intro s; rw [List.foldl_cons, ihx, ih]
    rw [h2, h1]

/-- Dry-run organize_files leaves the filesystem untouched. -/
theorem organize_dry_fs (fs : FS) (src : FPath) :
    (organize_files fs src true).fs = fs := by
  unfold organize_files
  split
  · rfl
  · split
    · rfl
    · exact foldl_pres (processOne src true) (fun st => st.fs = fs)
        (fun a b hp => by
          show (processOne src true a b).fs = fs
          rw [processOne_dry_fs]; exact hp) _ _ rfl

/-! ### Claim C1 -/

/-- C1: for every discovered file, the computed destination path equals
anchor / year-as-decimal-string / path-relative-to-anchor (this is what
`destPath` is, the function both `processOne` of disk_date_separator —
with the source directory as anchor — and `movProcessOne` of
folder_year_organiser — with the source's parent as anchor — apply),
and dropping the anchor and year components of the destination yields
back exactly the original anchor-relative path, byte for byte. -/
theorem C1_destination_structure (anchor : FPath) (year : Nat) (p : FPath) :
    destPath anchor year p = anchor ++ [toString year] ++ p.drop anchor.length
      ∧ (destPath anchor year p).drop (anchor.length + 1) = p.drop anchor.length := by
  exact ⟨rfl, destPath_drop anchor year p⟩

/-! ### Claim C2 -/

/-- C2: a dry run mutates nothing: for any input tree, both
disk_date_separator's organize_files and folder_year_organiser's
move_files (any fuel, any copy/full-path flags) return the filesystem —
files, their metadata, and the directory set — exactly as it was. -/
theorem C2_dry_run_no_mutation (fs : FS) (src : FPath) (fuel : Nat) (copy fp : Bool) :
    (organize_files fs src true).fs = fs ∧ (move_files fuel fs src copy true fp).fs = fs := by
  refine ⟨organize_dry_fs fs src, ?_⟩
  show (movWalk src.dropLast copy true fuel ⟨fs, 0, 0, []⟩ src).fs = fs
  rw [movWalk_dry_fs]

/-! ### Claim C4 -/

/-- C4: a file whose computed destination equals its current path is
treated as a pure skip by lines 109-111 of disk_date_separator.py: the
state — filesystem, moved and error counters, console output — is
returned unchanged, so nothing is transferred, nothing is logged as
moved, and no error is recorded.  (In folder_year_organiser the
situation cannot arise at all: by destPath_ne the destination is always
one component longer than the source, and the same lemma shows the skip
branch is in fact unreachable from processOne.) -/
theorem C4_skip_already_organized (dryRun : Bool) (st : OrgState) (p : FPath) :
    relocate dryRun st p p = st := by
  unfold relocate
  simp

/-! ### Counter lemmas -/

/-- A relocation of a file that is not already in place increments
exactly one of the two counters (moved in dry-run and on success, error
on a raised move). -/
theorem relocate_counts (d : Bool) (st : OrgState) (p dst : FPath) (hne : p ≠ dst) :
    (relocate d st p dst).moved_count + (relocate d st p dst).error_count
      = st.moved_count + st.error_count + 1 := by
  unfold relocate
  rw [if_neg hne]
  cases d
  · cases hm : (st.fs.mkdirParents dst.dropLast).moveFile p dst <;> simp [hm] <;> omega
  · show st.moved_count + 1 + st.error_count = st.moved_count + st.error_count + 1
    omega

/-- Every file the loop of disk_date_separator examines increments
exactly one of its two counters, in every mode. -/
theorem processOne_counts (src : FPath) (d : Bool) (st : OrgState) (p : FPath) :
    (processOne src d st p).moved_count + (processOne src d st p).error_count
      = st.moved_count + st.error_count + 1 := by
  unfold processOne
  cases h : get_file_creation_date st.fs p with
  | none => simp; omega
  | some y => exact relocate_counts d st p _ (fun he => destPath_ne src y p he.symm)

/-- Folding the loop: counters add up to the number of examined files. -/
theorem org_fold_counts (src : FPath) (d : Bool) :
    ∀ (l : List FPath) (st : OrgState),
      (l.foldl (processOne src d) st).moved_count
          + (l.foldl (processOne src d) st).error_count
        = st.moved_count + st.error_count + l.length := by
  intro l
  induction l with
  | nil => intro st; simp
  | cons x xs ih =>
    intro st
    rw [List.foldl_cons, ih]
    have h := processOne_counts src d st x
    simp only [List.length_cons]
    omega

/-- The error counter never decreases across a relocation. -/
theorem relocate_errors_le (d : Bool) (st : OrgState) (p dst : FPath) :
    st.error_count ≤ (relocate d st p dst).error_count := by
  unfold relocate
  split
  · exact Nat.le_refl _
  · split
    · exact Nat.le_refl _
    · cases hm : (st.fs.mkdirParents dst.dropLast).moveFile p dst <;> simp [hm]

/-- The error counter never decreases across one processed file. -/
theorem processOne_errors_le (src : FPath) (d : Bool) (st : OrgState) (p : FPath) :
    st.error_count ≤ (processOne src d st p).error_count := by
  unfold processOne
  cases h : get_file_creation_date st.fs p with
  | none => simp
  | some y => exact relocate_errors_le d st p _

/-- The error counter never decreases across the whole loop. -/
theorem org_fold_errors_le (src : FPath) (d : Bool) :
    ∀ (l : List FPath) (st : OrgState),
      st.error_count ≤ (l.foldl (processOne src d) st).error_count := by
  intro l
  induction l with
  | nil => intro st; exact Nat.le_refl _
  | cons x xs ih =>
    intro st
    rw [List.foldl_cons]
    exact Nat.le_trans (processOne_errors_le src d st x) (ih _)

/-- When the argument directory is missing or not a directory,
organize_files aborts: exit code 1, one stderr diagnostic, untouched
tree, zero counters. -/
theorem organize_abort (fs : FS) (src : FPath) (dry : Bool)
    (hdir : fs.isDirAt src = false) :
    organize_files fs src dry = ⟨fs, 0, 0, [Event.errLine src], 1⟩ := by
  unfold organize_files
  rw [hdir]
  by_cases hf : (fs.fileAt src).isSome = true
  · simp [hf]
  · simp [hf]

/-- When the argument is a directory, organize_files exits 0 and its
two counters sum to the number of snapshotted files, in every mode. -/
theorem org_run_counts (src : FPath) (d : Bool) (l : List FPath) (fs : FS) (evs : List Event) :
    (l.foldl (processOne src d) ⟨fs, 0, 0, evs⟩).moved_count
        + (l.foldl (processOne src d) ⟨fs, 0, 0, evs⟩).error_count = l.length := by
  have h := org_fold_counts src d l ⟨fs, 0, 0, evs⟩
  simpa using h

/-- When the argument is a directory, organize_files exits 0 and its
two counters sum to the number of snapshotted files, in every mode. -/
theorem organize_counts (fs : FS) (src : FPath) (dry : Bool)
    (hdir : fs.isDirAt src = true) :
    (organize_files fs src dry).exitCode = 0
      ∧ (organize_files fs src dry).moved_count + (organize_files fs src dry).error_count
          = (filesToProcess fs src).length := by
  unfold organize_files
  rw [hdir]
  cases dry
  · exact ⟨rfl, org_run_counts src false (filesToProcess fs src) fs _⟩
  · exact ⟨rfl, org_run_counts src true (filesToProcess fs src) fs _⟩

/-! ### Claim C5 -/

/-- C5 counterexample: folder_year_organiser performs no directory
check at all.  Pointed at a directory that does not exist (neither a
directory nor a file named `missing` is present), the script walks
nothing, touches nothing — and still exits with status 0 and not a
single error recorded, where the claim demands a non-zero exit status. -/
theorem C5_counterexample :
    fsNoDir.isDirAt ["missing"] = false
      ∧ (fsNoDir.fileAt ["missing"]).isSome = false
      ∧ folder_year_organiser_main 3 fsNoDir ["missing"] false false false
          = (⟨fsNoDir, 0, 0, [Event.scanDir ["missing"]]⟩, 0) := by
  refine ⟨rfl, rfl, rfl⟩

/-- C5 (amended): disk_date_separator's organize_files exits non-zero
precisely when the given path is not a directory, in which case it
emits a stderr diagnostic and touches no file; when the directory
exists the exit code is 0 and every snapshotted file is accounted for
by the two counters, so no per-file failure stops the run or changes
the exit status.  folder_year_organiser, by contrast, has no directory
check and its process always exits 0. -/
theorem C5_exit_and_error_policy (fs : FS) (src : FPath) (dry : Bool) (fuel : Nat)
    (c dr fp : Bool) :
    ((organize_files fs src dry).exitCode ≠ 0 ↔ fs.isDirAt src = false)
      ∧ (fs.isDirAt src = false →
            (organize_files fs src dry).fs = fs
              ∧ Event.errLine src ∈ (organize_files fs src dry).events)
      ∧ (fs.isDirAt src = true →
            (organize_files fs src dry).exitCode = 0
              ∧ (organize_files fs src dry).moved_count
                  + (organize_files fs src dry).error_count
                  = (filesToProcess fs src).length)
      ∧ (folder_year_organiser_main fuel fs src c dr fp).2 = 0 := by
  refine ⟨?_, ?_, organize_counts fs src dry, rfl⟩
  · constructor
    · intro hne
      by_cases hdir : fs.isDirAt src = true
      · exact absurd (organize_counts fs src dry hdir).1 hne
      · exact Bool.eq_false_iff.mpr hdir
    · intro hdir
      rw [organize_abort fs src dry hdir]
      exact one_ne_zero
  · intro hdir
    rw [organize_abort fs src dry hdir]
    exact ⟨rfl, List.mem_singleton.mpr rfl⟩

/-- C5 witness: at the concrete one-file tree the directory check
passes, the run exits 0 with one processed file; at the concrete
missing-directory input the tree is untouched. -/
theorem C5_witness :
    ((organize_files fsPlain ["s"] false).exitCode = 0
        ∧ (organize_files fsPlain ["s"] false).moved_count
            + (organize_files fsPlain ["s"] false).error_count
            = (filesToProcess fsPlain ["s"]).length)
      ∧ (organize_files fsNoDir ["missing"] false).fs = fsNoDir :=
  ⟨(C5_exit_and_error_policy fsPlain ["s"] false 1 false false false).2.2.1 (by decide),
    ((C5_exit_and_error_policy fsNoDir ["missing"] false 1 false false false).2.1
      (by decide)).1⟩

/-! ### Claim C6 -/

/-- Processing-attempt markers add across traces. -/
theorem procCount_append (l1 l2 : List Event) :
    procCount (l1 ++ l2) = procCount l1 + procCount l2 := by
  simp [procCount, List.filter_append]

/-- Outside dry-run, each file folder_year_organiser examines
increments exactly one of its two counters, and is marked as exactly
one processing attempt. -/
theorem movProcessOne_counts (anchor : FPath) (c : Bool) (st : MovState) (p : FPath) :
    ((movProcessOne anchor c false st p).moved_count
        + (movProcessOne anchor c false st p).error_count
      = st.moved_count + st.error_count + 1)
      ∧ procCount (movProcessOne anchor c false st p).events = procCount st.events + 1 := by
  unfold movProcessOne
  cases h : get_file_creation_date st.fs p with
  | none =>
    constructor
    · show st.moved_count + (st.error_count + 1) = st.moved_count + st.error_count + 1
      omega
    · show procCount (st.events ++ [Event.proc p, Event.errLine p]) = procCount st.events + 1
      simp [procCount_append, procCount]
  | some y =>
    simp only [Bool.false_eq_true, if_false]
    split
    · constructor
      · show st.moved_count + 1 + st.error_count = st.moved_count + st.error_count + 1
        omega
      · show procCount (st.events ++ [Event.proc p, Event.moveLine p (destPath anchor y p)])
            = procCount st.events + 1
        simp [procCount_append, procCount]
    · constructor
      · show st.moved_count + (st.error_count + 1) = st.moved_count + st.error_count + 1
        omega
      · show procCount (st.events
            ++ [Event.proc p, Event.moveLine p (destPath anchor y p), Event.errLine p])
            = procCount st.events + 1
        simp [procCount_append, procCount]

/-- Across the non-dry walk of folder_year_organiser, the growth of
moved plus error counters equals the number of processing attempts. -/
theorem movWalk_counts (anchor : FPath) (c : Bool) :
    ∀ (fuel : Nat) (st : MovState) (d : FPath),
      (movWalk anchor c false fuel st d).moved_count
          + (movWalk anchor c false fuel st d).error_count + procCount st.events
        = st.moved_count + st.error_count
            + procCount (movWalk anchor c false fuel st d).events := by
  intro fuel
  induction fuel with
  | zero => intro st d; rfl
  | succ n ih =>
    intro st d
    simp only [movWalk]
    have hfils : ∀ (l : List FPath) (s : MovState),
        (l.foldl (movProcessOne anchor c false) s).moved_count
            + (l.foldl (movProcessOne anchor c false) s).error_count + procCount s.events
          = s.moved_count + s.error_count
              + procCount (l.foldl (movProcessOne anchor c false) s).events := by
      intro l
      induction l with
      | nil => intro s; rfl
      | cons x xs ihx =>
        intro s
        rw [List.foldl_cons]
        have h1 := movProcessOne_counts anchor c s x
        have h2 := ihx (movProcessOne anchor c false s x)
        omega
    have hsubs : ∀ (l : List FPath) (s : MovState),
        (l.foldl (fun s e => movWalk anchor c false n s e) s).moved_count
            + (l.foldl (fun s e => movWalk anchor c false n s e) s).error_count
            + procCount s.events
          = s.moved_count + s.error_count
              + procCount (l.foldl (fun s e => movWalk anchor c false n s e) s).events := by
      intro l
      induction l with
      | nil => intro s; rfl
      | cons x xs ihx =>
        intro s
        rw [List.foldl_cons]
        have h1 := ih s x
        have h2 := ihx (movWalk anchor c false n s x)
        omega
    have h3 := hfils (childFilePaths st.fs d)
      ⟨st.fs, st.moved_count, st.error_count, st.events ++ [Event.scanDir d]⟩
    have h4 := hsubs (childDirs st.fs d)
      ((childFilePaths st.fs d).foldl (movProcessOne anchor c false)
        ⟨st.fs, st.moved_count, st.error_count, st.events ++ [Event.scanDir d]⟩)
    have h5 : procCount (st.events ++ [Event.scanDir d]) = procCount st.events := by
      simp [procCount_append, procCount]
    simp only at h3
    omega

/-- C6 counterexample: in dry-run mode folder_year_organiser's
move_files examines a healthy file — one processing attempt is made on
the concrete one-file tree — yet increments neither the moved counter
nor the error counter, so this discovered file's outcome touches no
run counter at all, where the claim requires exactly one. -/
theorem C6_counterexample :
    procCount (move_files 3 fsPlain ["s"] false true false).events = 1
      ∧ (move_files 3 fsPlain ["s"] false true false).moved_count = 0
      ∧ (move_files 3 fsPlain ["s"] false true false).error_count = 0 := by
  refine ⟨rfl, rfl, rfl⟩

/-- C6 (amended): in disk_date_separator every examined file increments
exactly one of the two counters in every mode, and over a whole run on
an existing directory the counters sum to the number of discovered
files, so no file escapes the three outcomes; in folder_year_organiser
the same exactly-one-counter accounting holds for move and copy mode
(counters sum to the number of processing attempts), but not in its
dry-run mode, which counts nothing. -/
theorem C6_outcome_accounting (src : FPath) (d : Bool) (st : OrgState) (p : FPath)
    (fs : FS) (fuel : Nat) (c fp : Bool) :
    ((processOne src d st p).moved_count + (processOne src d st p).error_count
        = st.moved_count + st.error_count + 1)
      ∧ (fs.isDirAt src = true →
          (organize_files fs src d).moved_count + (organize_files fs src d).error_count
            = (filesToProcess fs src).length)
      ∧ ((move_files fuel fs src c false fp).moved_count
            + (move_files fuel fs src c false fp).error_count
          = procCount (move_files fuel fs src c false fp).events) := by
  refine ⟨processOne_counts src d st p, fun hdir => (organize_counts fs src d hdir).2, ?_⟩
  have h2 : (movWalk src.dropLast c false fuel ⟨fs, 0, 0, []⟩ src).moved_count
      + (movWalk src.dropLast c false fuel ⟨fs, 0, 0, []⟩ src).error_count + 0
    = 0 + 0 + procCount (movWalk src.dropLast c false fuel ⟨fs, 0, 0, []⟩ src).events :=
    movWalk_counts src.dropLast c fuel ⟨fs, 0, 0, []⟩ src
  show (movWalk src.dropLast c false fuel ⟨fs, 0, 0, []⟩ src).moved_count
      + (movWalk src.dropLast c false fuel ⟨fs, 0, 0, []⟩ src).error_count
    = procCount (movWalk src.dropLast c false fuel ⟨fs, 0, 0, []⟩ src).events
  omega

/-- C6 witness: the accounting theorem applied at a concrete one-file
tree: the organize_files run on directory `s` processes exactly one
file. -/
theorem C6_witness :
    (organize_files fsPlain ["s"] false).moved_count
        + (organize_files fsPlain ["s"] false).error_count
      = (filesToProcess fsPlain ["s"]).length :=
  (C6_outcome_accounting ["s"] false ⟨fsPlain, 0, 0, []⟩ ["s", "a"] fsPlain 1 false
    false).2.1 (by decide)

/-! ### Claim C7 -/

/-- A relocation appends only non-discovery events to the trace. -/
theorem relocate_events (d : Bool) (st : OrgState) (p dst : FPath) :
    ∃ new, (relocate d st p dst).events = st.events ++ new
      ∧ new.all (fun e => !isDiscoverEv e) = true := by
  unfold relocate
  split
  · exact ⟨[], by simp, rfl⟩
  · split
    · exact ⟨[Event.moveLine p dst], rfl, rfl⟩
    · cases hm : (st.fs.mkdirParents dst.dropLast).moveFile p dst with
      | some fs2 =>
        refine ⟨[Event.moveLine p dst], ?_, rfl⟩
        simp [hm]
      | none =>
        refine ⟨[Event.moveLine p dst, Event.errLine p], ?_, rfl⟩
        simp [hm]

/-- One processed file appends only non-discovery events. -/
theorem processOne_events (src : FPath) (d : Bool) (st : OrgState) (p : FPath) :
    ∃ new, (processOne src d st p).events = st.events ++ new
      ∧ new.all (fun e => !isDiscoverEv e) = true := by
  unfold processOne
  cases h : get_file_creation_date st.fs p with
  | none => exact ⟨[Event.errLine p], rfl, rfl⟩
  | some y => exact relocate_events d st p _

/-- The whole processing loop appends only non-discovery events. -/
theorem org_fold_events (src : FPath) (d : Bool) :
    ∀ (l : List FPath) (st : OrgState),
      ∃ tail, (l.foldl (processOne src d) st).events = st.events ++ tail
        ∧ tail.all (fun e => !isDiscoverEv e) = true := by
  intro l
  induction l with
  | nil => intro st; exact ⟨[], by simp, rfl⟩
  | cons x xs ih =>
    intro st
    rcases processOne_events src d st x with ⟨new, hnew, hall⟩
    rcases ih (processOne src d st x) with ⟨tail, htail, halltail⟩
    refine ⟨new ++ tail, ?_, ?_⟩
    · rw [List.foldl_cons, htail, hnew, List.append_assoc]
    · rw [List.all_append, hall, halltail]
      rfl

/-- Reconciliation appends only directory-removal lines, never a
discovery. -/
theorem cleanup_fold_events (root : FPath) :
    ∀ (L : List FPath) (acc : FS × List Event),
      ∃ tail, (L.foldl (rmdirStep root) acc).2 = acc.2 ++ tail
        ∧ tail.all (fun e => !isDiscoverEv e) = true := by
  intro L
  induction L with
  | nil => intro acc; exact ⟨[], by simp, rfl⟩
  | cons x xs ih =>
    intro acc
    rcases ih (rmdirStep root acc x) with ⟨tail, htail, hall⟩
    have hstep : ∃ new, (rmdirStep root acc x).2 = acc.2 ++ new
        ∧ new.all (fun e => !isDiscoverEv e) = true := by
      unfold rmdirStep
      split
      · exact ⟨[], by simp, rfl⟩
      · split
        · exact ⟨[Event.removeDirLine x], rfl, rfl⟩
        · exact ⟨[], by simp, rfl⟩
    rcases hstep with ⟨new, hnew, hallnew⟩
    refine ⟨new ++ tail, ?_, ?_⟩
    · rw [List.foldl_cons, htail, hnew, List.append_assoc]
    · rw [List.all_append, hallnew, hall]
      rfl

/-- When the directory exists, a run of organize_files unfolds to the
snapshot-process-reconcile pipeline. -/
theorem organize_run_eq (fs : FS) (src : FPath) (dry : Bool)
    (hdir : fs.isDirAt src = true) :
    organize_files fs src dry =
      (if dry then
        ⟨((filesToProcess fs src).foldl (processOne src dry)
            ⟨fs, 0, 0, (skippedYearDirs fs src).map Event.skipYearDir
              ++ (filesToProcess fs src).map Event.discover⟩).fs,
          ((filesToProcess fs src).foldl (processOne src dry)
            ⟨fs, 0, 0, (skippedYearDirs fs src).map Event.skipYearDir
              ++ (filesToProcess fs src).map Event.discover⟩).moved_count,
          ((filesToProcess fs src).foldl (processOne src dry)
            ⟨fs, 0, 0, (skippedYearDirs fs src).map Event.skipYearDir
              ++ (filesToProcess fs src).map Event.discover⟩).error_count,
          ((filesToProcess fs src).foldl (processOne src dry)
            ⟨fs, 0, 0, (skippedYearDirs fs src).map Event.skipYearDir
              ++ (filesToProcess fs src).map Event.discover⟩).events, 0⟩
      else
        ⟨(cleanup_empty_dirs ((filesToProcess fs src).foldl (processOne src dry)
            ⟨fs, 0, 0, (skippedYearDirs fs src).map Event.skipYearDir
              ++ (filesToProcess fs src).map Event.discover⟩).fs src).1,
          ((filesToProcess fs src).foldl (processOne src dry)
            ⟨fs, 0, 0, (skippedYearDirs fs src).map Event.skipYearDir
              ++ (filesToProcess fs src).map Event.discover⟩).moved_count,
          ((filesToProcess fs src).foldl (processOne src dry)
            ⟨fs, 0, 0, (skippedYearDirs fs src).map Event.skipYearDir
              ++ (filesToProcess fs src).map Event.discover⟩).error_count,
          ((filesToProcess fs src).foldl (processOne src dry)
            ⟨fs, 0, 0, (skippedYearDirs fs src).map Event.skipYearDir
              ++ (filesToProcess fs src).map Event.discover⟩).events
            ++ (cleanup_empty_dirs ((filesToProcess fs src).foldl (processOne src dry)
              ⟨fs, 0, 0, (skippedYearDirs fs src).map Event.skipYearDir
                ++ (filesToProcess fs src).map Event.discover⟩).fs src).2, 0⟩) := by
  unfold organize_files
  rw [hdir]
  rfl

/-- The console output of an organize_files run on an existing
directory opens with the skip diagnostics, then the complete discovery
list, and everything after that is not a discovery. -/
theorem organize_events_split (fs : FS) (src : FPath) (dry : Bool)
    (hdir : fs.isDirAt src = true) :
    ∃ tail, (organize_files fs src dry).events
        = (skippedYearDirs fs src).map Event.skipYearDir
            ++ (filesToProcess fs src).map Event.discover ++ tail
      ∧ tail.all (fun e => !isDiscoverEv e) = true := by
  rw [organize_run_eq fs src dry hdir]
  rcases org_fold_events src dry (filesToProcess fs src)
      ⟨fs, 0, 0, (skippedYearDirs fs src).map Event.skipYearDir
        ++ (filesToProcess fs src).map Event.discover⟩ with ⟨tail, htail, hall⟩
  cases dry
  · rcases cleanup_fold_events src (cleanupOrder ((filesToProcess fs src).foldl
        (processOne src false)
        ⟨fs, 0, 0, (skippedYearDirs fs src).map Event.skipYearDir
          ++ (filesToProcess fs src).map Event.discover⟩).fs src)
        (((filesToProcess fs src).foldl (processOne src false)
          ⟨fs, 0, 0, (skippedYearDirs fs src).map Event.skipYearDir
            ++ (filesToProcess fs src).map Event.discover⟩).fs, []) with ⟨ctail, hctail, hcall⟩
    refine ⟨tail ++ (cleanup_empty_dirs ((filesToProcess fs src).foldl (processOne src false)
        ⟨fs, 0, 0, (skippedYearDirs fs src).map Event.skipYearDir
          ++ (filesToProcess fs src).map Event.discover⟩).fs src).2, ?_, ?_⟩
    · show ((filesToProcess fs src).foldl (processOne src false)
          ⟨fs, 0, 0, (skippedYearDirs fs src).map Event.skipYearDir
            ++ (filesToProcess fs src).map Event.discover⟩).events
          ++ (cleanup_empty_dirs ((filesToProcess fs src).foldl (processOne src false)
            ⟨fs, 0, 0, (skippedYearDirs fs src).map Event.skipYearDir
              ++ (filesToProcess fs src).map Event.discover⟩).fs src).2 = _
      rw [htail]
      simp [List.append_assoc]
    · rw [List.all_append, hall]
      show (cleanup_empty_dirs ((filesToProcess fs src).foldl (processOne src false)
          ⟨fs, 0, 0, (skippedYearDirs fs src).map Event.skipYearDir
            ++ (filesToProcess fs src).map Event.discover⟩).fs src).2.all
          (fun e => !isDiscoverEv e) = true
      have h2 : (cleanup_empty_dirs ((filesToProcess fs src).foldl (processOne src false)
          ⟨fs, 0, 0, (skippedYearDirs fs src).map Event.skipYearDir
            ++ (filesToProcess fs src).map Event.discover⟩).fs src).2
          = [] ++ ctail := hctail
      rw [h2]
      simpa using hcall
  · refine ⟨tail, ?_, hall⟩
    show ((filesToProcess fs src).foldl (processOne src true)
        ⟨fs, 0, 0, (skippedYearDirs fs src).map Event.skipYearDir
          ++ (filesToProcess fs src).map Event.discover⟩).events = _
    rw [htail]

/-- Membership in the snapshot list of disk_date_separator. -/
theorem mem_filesToProcess (fs : FS) (src p : FPath) :
    p ∈ filesToProcess fs src
      ↔ ∃ f ∈ fs.files, f.path = p
          ∧ underDir src f.path = true ∧ prunedTop src f.path = false := by
  unfold filesToProcess
  constructor
  · intro hp
    rcases List.mem_map.mp hp with ⟨f, hf, hfp⟩
    rcases List.mem_filter.mp hf with ⟨hmem, hpred⟩
    rcases Bool.and_eq_true_iff.mp hpred with ⟨h1, h2⟩
    exact ⟨f, hmem, hfp, h1, by simpa using h2⟩
  · rintro ⟨f, hmem, hfp, h1, h2⟩
    refine List.mem_map.mpr ⟨f, List.mem_filter.mpr ⟨hmem, ?_⟩, hfp⟩
    rw [h1, h2]
    rfl

/-- C7 counterexample: folder_year_organiser never prunes: on the
concrete tree whose only file sits inside the top-level 4-digit
directory `s/2020` of the source `s`, the walk scans that year
directory and processes the file inside it, where the claim says the
scanner never descends into such a directory. -/
theorem C7_counterexample :
    Event.scanDir ["s", "2020"] ∈ (move_files 3 fsYearTop ["s"] false true false).events
      ∧ procCount (move_files 3 fsYearTop ["s"] false true false).events = 1
      ∧ isYearName "2020" = true := by
  refine ⟨by decide, rfl, by decide⟩

/-- C7 (amended): the pruning behaviour holds for disk_date_separator
only.  Its snapshot excludes exactly the files inside top-level 4-digit
directories: a file below such a directory is never processed, any
other file below the source is processed, the pruning test looks only
at the first component below the source (a 4-digit directory at a
deeper level does not prune), and the run's output opens with the one
skip diagnostic per skipped top-level year directory.
folder_year_organiser's walk prunes nothing, as the counterexample
shows. -/
theorem C7_scanner_pruning (fs : FS) (src : FPath) (f : FileRec) (x d : String)
    (rest : FPath) (dry : Bool) :
    (f ∈ fs.files → prunedTop src f.path = true → f.path ∉ filesToProcess fs src)
      ∧ (f ∈ fs.files → underDir src f.path = true → prunedTop src f.path = false →
          f.path ∈ filesToProcess fs src)
      ∧ (isYearName x = false → prunedTop src (src ++ x :: d :: rest) = false)
      ∧ (fs.isDirAt src = true → ∃ tail, (organize_files fs src dry).events
          = (skippedYearDirs fs src).map Event.skipYearDir ++ tail) := by
  refine ⟨?_, ?_, ?_, ?_⟩
  · intro hmem hpr hin
    rcases (mem_filesToProcess fs src f.path).mp hin with ⟨g, hg, hgp, hu, hnp⟩
    rw [hgp] at hnp
    rw [hpr] at hnp
    exact Bool.true_eq_false.mp hnp
  · intro hmem hu hnp
    exact (mem_filesToProcess fs src f.path).mpr ⟨f, hmem, rfl, hu, hnp⟩
  · intro hx
    unfold prunedTop
    rw [List.drop_left src (x :: d :: rest)]
    exact hx
  · intro hdir
    rcases organize_events_split fs src dry hdir with ⟨tail, htail, _⟩
    exact ⟨(filesToProcess fs src).map Event.discover ++ tail, by
      rw [htail, List.append_assoc]⟩

/-- C7 witness: the pruning theorem applied concretely — the file
inside the top-level year directory of fsYearTop is not snapshotted, a
plain file is, a deeper 4-digit directory does not prune, and the skip
diagnostics open the output. -/
theorem C7_witness :
    (["s", "2020", "a"] : FPath) ∉ filesToProcess fsYearTop ["s"]
      ∧ (["s", "a"] : FPath) ∈ filesToProcess fsPlain ["s"]
      ∧ prunedTop ["s"] (["s"] ++ "sub" :: "2020" :: ["b"]) = false
      ∧ (∃ tail, (organize_files fsPlain ["s"] false).events
          = (skippedYearDirs fsPlain ["s"]).map Event.skipYearDir ++ tail) := by
  refine ⟨(C7_scanner_pruning fsYearTop ["s"] ⟨["s", "2020", "a"], some 2020⟩
      "sub" "2020" ["b"] false).1 (by decide) (by decide),
    (C7_scanner_pruning fsPlain ["s"] ⟨["s", "a"], some 2020⟩
      "sub" "2020" ["b"] false).2.1 (by decide) (by decide) (by decide),
    (C7_scanner_pruning fsPlain ["s"] ⟨["s", "a"], some 2020⟩
      "sub" "2020" ["b"] false).2.2.1 (by decide),
    (C7_scanner_pruning fsPlain ["s"] ⟨["s", "a"], some 2020⟩
      "sub" "2020" ["b"] false).2.2.2 (by decide)⟩

/-! ### Claim C8 -/

/-- C8 counterexample: folder_year_organiser interleaves walking and
moving.  On the concrete two-directory tree, the trace shows the move
of the first file (index 3) happening before the walk reaches the
second directory (scan at index 4) and before the second file is even
seen (index 5) — enumeration is not complete before the first
relocation, and a directory created earlier could still change what the
rest of the walk sees. -/
theorem C8_counterexample :
    (move_files 5 fsTwoDirs ["s"] false false false).events[3]?
        = some (Event.moveLine ["s", "d1", "a"] ["2020", "s", "d1", "a"])
      ∧ (move_files 5 fsTwoDirs ["s"] false false false).events[4]?
        = some (Event.scanDir ["s", "d2"])
      ∧ (move_files 5 fsTwoDirs ["s"] false false false).events[5]?
        = some (Event.proc ["s", "d2", "b"]) := by
  refine ⟨rfl, rfl, rfl⟩

/-- C8 (amended): the snapshot property holds for disk_date_separator
only: its run first emits the complete discovery list — computed from
the initial tree, before any relocation — and every event after that
complete enumeration is a processing or reconciliation event, never a
further discovery.  folder_year_organiser instead walks and moves
interleaved, as the counterexample shows. -/
theorem C8_snapshot_semantics (fs : FS) (src : FPath) (dry : Bool)
    (hdir : fs.isDirAt src = true) :
    ∃ tail, (organize_files fs src dry).events
        = (skippedYearDirs fs src).map Event.skipYearDir
            ++ (filesToProcess fs src).map Event.discover ++ tail
      ∧ tail.all (fun e => !isDiscoverEv e) = true :=
  organize_events_split fs src dry hdir

/-- C8 witness: the snapshot theorem applied at the concrete one-file
tree. -/
theorem C8_witness :
    ∃ tail, (organize_files fsPlain ["s"] false).events
        = (skippedYearDirs fsPlain ["s"]).map Event.skipYearDir
            ++ (filesToProcess fsPlain ["s"]).map Event.discover ++ tail
      ∧ tail.all (fun e => !isDiscoverEv e) = true :=
  C8_snapshot_semantics fsPlain ["s"] false (by decide)

/-! ### Claim C9 -/

/-- Membership and containment agree for paths. -/
theorem contains_iff_mem (l : List FPath) (a : FPath) : l.contains a = true ↔ a ∈ l :=
  List.elem_iff

/-- The direct-child test evaluates to true on `d/x`. -/
theorem child_test_true (d : FPath) (x : String) :
    ((d ++ [x]).length == d.length + 1 && (d ++ [x]).take d.length == d) = true := by
  simp [List.take_left]

/-- A directory os.listdir reports empty has no child directory. -/
theorem listdirIsEmpty_no_dir_child (fs : FS) (d : FPath) (x : String)
    (h : listdirIsEmpty fs d = true) : (d ++ [x]) ∉ fs.dirs := by
  intro hmem
  rcases Bool.and_eq_true_iff.mp h with ⟨h1, h2⟩
  have h3 := List.all_eq_true.mp h2 _ hmem
  rw [child_test_true] at h3
  exact absurd h3 (by decide)

/-- A directory os.listdir reports empty has no child file. -/
theorem listdirIsEmpty_no_file_child (fs : FS) (d : FPath) (x : String) (f : FileRec)
    (h : listdirIsEmpty fs d = true) (hf : f ∈ fs.files) : f.path ≠ d ++ [x] := by
  intro hpath
  rcases Bool.and_eq_true_iff.mp h with ⟨h1, h2⟩
  have h3 := List.all_eq_true.mp h1 _ hf
  rw [hpath, child_test_true] at h3
  exact absurd h3 (by decide)

/-- One reconciliation step never touches the files. -/
theorem rmdirStep_files (root : FPath) (acc : FS × List Event) (e : FPath) :
    (rmdirStep root acc e).1.files = acc.1.files := by
  unfold rmdirStep
  split
  · rfl
  · split <;> rfl

/-- One reconciliation step only ever removes directories. -/
theorem rmdirStep_dirs_sub (root : FPath) (acc : FS × List Event) (e d : FPath)
    (h : d ∈ (rmdirStep root acc e).1.dirs) : d ∈ acc.1.dirs := by
  unfold rmdirStep at h
  split at h
  · exact h
  · split at h
    · exact (List.mem_filter.mp h).1
    · exact h

/-- The whole reconciliation pass never touches the files. -/
theorem cleanup_fold_files (root : FPath) :
    ∀ (L : List FPath) (acc : FS × List Event),
      ((L.foldl (rmdirStep root) acc).1).files = acc.1.files := by
  intro L
  induction L with
  | nil => intro acc; rfl
  | cons x xs ih =>
    intro acc
    rw [List.foldl_cons, ih, rmdirStep_files]

/-- The whole reconciliation pass only ever removes directories. -/
theorem cleanup_fold_dirs_sub (root : FPath) :
    ∀ (L : List FPath) (acc : FS × List Event) (d : FPath),
      d ∈ (L.foldl (rmdirStep root) acc).1.dirs → d ∈ acc.1.dirs := by
  intro L
  induction L with
  | nil => intro acc d h; exact h
  | cons x xs ih =>
    intro acc d h
    rw [List.foldl_cons] at h
    exact rmdirStep_dirs_sub root acc x d (ih _ d h)

/-- A protected directory (the root, or a 4-digit direct child of the
root) survives the whole reconciliation pass. -/
theorem cleanup_fold_keeps_protected (root : FPath) :
    ∀ (L : List FPath) (acc : FS × List Event) (d : FPath),
      protectedDir root d = true → d ∈ acc.1.dirs →
      d ∈ (L.foldl (rmdirStep root) acc).1.dirs := by
  intro L
  induction L with
  | nil => intro acc d _ hd; exact hd
  | cons e xs ih =>
    intro acc d hprot hd
    rw [List.foldl_cons]
    apply ih _ d hprot
    unfold rmdirStep
    split
    · exact hd
    next hprote =>
      split
      next hemp =>
        refine List.mem_filter.mpr ⟨hd, ?_⟩
        rw [bne_iff_ne]
        intro hde
        rw [hde] at hprot
        exact hprote hprot
      next => exact hd

/-- A directory that still has a direct entry — a child directory that
survives to the end of the pass, or any child file — is never removed
by the reconciliation pass. -/
theorem cleanup_fold_keeps_occupied (root : FPath) :
    ∀ (L : List FPath) (acc : FS × List Event) (d : FPath) (x : String),
      d ∈ acc.1.dirs →
      ((d ++ [x]) ∈ (L.foldl (rmdirStep root) acc).1.dirs
        ∨ ∃ f ∈ (L.foldl (rmdirStep root) acc).1.files, f.path = d ++ [x]) →
      d ∈ (L.foldl (rmdirStep root) acc).1.dirs := by
  intro L
  induction L with
  | nil =>
    intro acc d x hd hch
    exact hd
  | cons e xs ih =>
    intro acc d x hd hch
    rw [List.foldl_cons] at hch ⊢
    refine ih _ d x ?_ hch
    unfold rmdirStep
    split
    · exact hd
    next hprot =>
      split
      next hemp =>
        refine List.mem_filter.mpr ⟨hd, ?_⟩
        rw [bne_iff_ne]
        intro hde
        rw [← hde] at hemp
        rcases hch with hdir | ⟨f, hf, hfp⟩
        · have h1 : (d ++ [x]) ∈ (rmdirStep root acc e).1.dirs :=
            cleanup_fold_dirs_sub root xs _ _ hdir
          have h2 : (d ++ [x]) ∈ acc.1.dirs := rmdirStep_dirs_sub root acc e _ h1
          exact absurd h2 (listdirIsEmpty_no_dir_child acc.1 d x hemp)
        · have h1 : f ∈ (rmdirStep root acc e).1.files := by
            rw [cleanup_fold_files root xs _] at hf
            exact hf
          have h2 : f ∈ acc.1.files := by
            rw [rmdirStep_files root acc e] at h1
            exact h1
          exact absurd hfp (listdirIsEmpty_no_file_child acc.1 d x f hemp h2)
      next => exact hd

/-- Reconciliation logs nothing but removal lines: no error counter
exists in cleanup_empty_dirs and no error line is ever emitted. -/
theorem cleanup_fold_removals (root : FPath) :
    ∀ (L : List FPath) (acc : FS × List Event),
      (∀ e ∈ acc.2, ∃ q, e = Event.removeDirLine q) →
      ∀ e ∈ (L.foldl (rmdirStep root) acc).2, ∃ q, e = Event.removeDirLine q := by
  intro L
  induction L with
  | nil => intro acc h; exact h
  | cons x xs ih =>
    intro acc h
    rw [List.foldl_cons]
    apply ih
    unfold rmdirStep
    split
    · exact h
    · split
      · intro e he
        rcases List.mem_append.mp he with h1 | h1
        · exact h e h1
        · exact ⟨x, List.mem_singleton.mp h1⟩
      · exact h

/-- The root itself is protected. -/
theorem protectedDir_self (root : FPath) : protectedDir root root = true := by
  simp [protectedDir]

/-- A 4-digit-named direct child of the root is protected. -/
theorem protectedDir_year (root : FPath) (n : String) (h : isYearName n = true) :
    protectedDir root (root ++ [n]) = true := by
  unfold protectedDir
  refine Bool.or_eq_true_iff.mpr (Or.inr ?_)
  simp [lastName, List.getLastD_concat, h]

/-- C9: the reconciliation pass preserves every file; it never removes
the source root nor a 4-digit direct child of it; a removed directory
never had a surviving entry (any directory with a direct child file, or
with a child directory still present at the end of the pass, is still
present); only directories that already existed remain; and its entire
output consists of removal lines — a directory that stays behind
produces no diagnostic, no error line and touches no counter, matching
the silent except-OSError-pass policy. -/
theorem C9_reconciliation_safety (fs : FS) (root d : FPath) (x n : String) :
    ((cleanup_empty_dirs fs root).1.files = fs.files)
      ∧ (root ∈ fs.dirs → root ∈ (cleanup_empty_dirs fs root).1.dirs)
      ∧ (isYearName n = true → root ++ [n] ∈ fs.dirs →
          root ++ [n] ∈ (cleanup_empty_dirs fs root).1.dirs)
      ∧ (∀ e ∈ (cleanup_empty_dirs fs root).1.dirs, e ∈ fs.dirs)
      ∧ (d ∈ fs.dirs →
          ((d ++ [x]) ∈ (cleanup_empty_dirs fs root).1.dirs
            ∨ ∃ f ∈ (cleanup_empty_dirs fs root).1.files, f.path = d ++ [x]) →
          d ∈ (cleanup_empty_dirs fs root).1.dirs)
      ∧ (∀ e ∈ (cleanup_empty_dirs fs root).2, ∃ q, e = Event.removeDirLine q) := by
  refine ⟨cleanup_fold_files root (cleanupOrder fs root) (fs, []),
    fun h => cleanup_fold_keeps_protected root (cleanupOrder fs root) (fs, []) root
      (protectedDir_self root) h,
    fun hy h => cleanup_fold_keeps_protected root (cleanupOrder fs root) (fs, []) (root ++ [n])
      (protectedDir_year root n hy) h,
    fun e he => cleanup_fold_dirs_sub root (cleanupOrder fs root) (fs, []) e he,
    fun hd hch => cleanup_fold_keeps_occupied root (cleanupOrder fs root) (fs, []) d x hd hch,
    cleanup_fold_removals root (cleanupOrder fs root) (fs, []) (fun e he => absurd he
      (List.not_mem_nil e))⟩

/-- C9 witness: on the concrete tree the pass keeps the root `s` (which
holds a file) and the empty year directory `s/2020`, while the file
list is untouched. -/
theorem C9_witness :
    (cleanup_empty_dirs fsCleanup ["s"]).1.files = fsCleanup.files
      ∧ (["s"] : FPath) ∈ (cleanup_empty_dirs fsCleanup ["s"]).1.dirs
      ∧ (["s", "2020"] : FPath) ∈ (cleanup_empty_dirs fsCleanup ["s"]).1.dirs
      ∧ (["s"] : FPath) ∈ (cleanup_empty_dirs fsCleanup ["s"]).1.dirs := by
  have h := C9_reconciliation_safety fsCleanup ["s"] ["s"] "a" "2020"
  refine ⟨h.1, h.2.1 (by decide), h.2.2.1 (by decide) (by decide), ?_⟩
  refine h.2.2.2.2.1 (by decide) (Or.inr ?_)
  refine ⟨⟨["s", "a"], some 2020⟩, ?_, rfl⟩
  rw [h.1]
  decide

/-! ### Claim C10 -/

/-- Creating directories never changes any file lookup. -/
theorem mkdirParents_fileAt (fs : FS) (d q : FPath) :
    (fs.mkdirParents d).fileAt q = fs.fileAt q := rfl

/-- Every ancestor produced for mkdir is no longer than the target. -/
theorem mem_pathAncestors_length (p q : FPath) (h : q ∈ pathAncestors p) :
    q.length ≤ p.length := by
  rcases List.mem_map.mp h with ⟨k, hk, hq⟩
  rw [← hq, List.length_take]
  exact min_le_right _ _

/-- mkdir of a shorter path never creates the longer path `q`. -/
theorem mkdirParents_isDirAt_longer (fs : FS) (d q : FPath)
    (hq : fs.isDirAt q = false) (hl : d.length < q.length) :
    (fs.mkdirParents d).isDirAt q = false := by
  apply Bool.eq_false_iff.mpr
  intro hcon
  rcases List.mem_append.mp ((contains_iff_mem _ q).mp hcon) with h1 | h1
  · have h2 : fs.dirs.contains q = true := (contains_iff_mem _ q).mpr h1
    rw [FS.isDirAt] at hq
    rw [hq] at h2
    exact absurd h2 (by decide)
  · have h2 := mem_pathAncestors_length d q (List.mem_filter.mp h1).1
    omega

/-- Writing a file makes it the unique record at its path. -/
theorem putFile_fileAt_self (fs : FS) (p : FPath) (s : Option Nat) :
    (fs.putFile p s).fileAt p = some ⟨p, s⟩ := by
  unfold FS.putFile FS.fileAt
  rw [List.find?_append]
  have h1 : (fs.files.filter (fun f => f.path != p)).find? (fun f => f.path == p) = none := by
    rw [List.find?_eq_none]
    intro f hf
    have h2 := (List.mem_filter.mp hf).2
    rw [bne_iff_ne] at h2
    simp [h2]
  rw [h1]
  simp

/-- Deleting a file really removes it. -/
theorem removeFileAt_fileAt_self (fs : FS) (p : FPath) :
    (fs.removeFileAt p).fileAt p = none := by
  unfold FS.removeFileAt FS.fileAt
  rw [List.find?_eq_none]
  intro f hf
  have h2 := (List.mem_filter.mp hf).2
  rw [bne_iff_ne] at h2
  simp [h2]

/-- Writing at one path does not resurrect a file at another. -/
theorem putFile_fileAt_ne (fs : FS) (p dst : FPath) (s : Option Nat) (h : p ≠ dst)
    (h2 : fs.fileAt p = none) : (fs.putFile dst s).fileAt p = none := by
  unfold FS.putFile FS.fileAt
  rw [List.find?_append]
  have h1 : (fs.files.filter (fun f => f.path != dst)).find? (fun f => f.path == p) = none := by
    rw [List.find?_eq_none]
    intro f hf
    unfold FS.fileAt at h2
    exact List.find?_eq_none.mp h2 f (List.mem_filter.mp hf).1
  rw [h1]
  have h3 : (dst == p) = false := by
    apply beq_eq_false_iff_ne.mpr
    exact fun he => h (he.symm)
  simp [List.find?, h3]

/-- After a write, every record at the written path carries the new
metadata: the previous occupant is gone. -/
theorem putFile_unique (fs : FS) (dst : FPath) (s : Option Nat) :
    ∀ f ∈ (fs.putFile dst s).files, f.path = dst → f.stat = s := by
  intro f hf hfp
  rcases List.mem_append.mp hf with h1 | h1
  · have h2 := (List.mem_filter.mp h1).2
    rw [bne_iff_ne] at h2
    exact absurd hfp h2
  · rw [List.mem_singleton.mp h1]

/-- C10: when the computed destination is already occupied by a regular
file, the non-dry move of disk_date_separator silently replaces it:
exactly one moved line is printed, the moved counter increments, the
error counter does not change, the destination now holds the moved
file's record, the source is gone, and no record with the old
occupant's metadata survives at the destination.  The copy2 of
folder_year_organiser behaves the same way, returning the overwritten
tree rather than raising. -/
theorem C10_silent_overwrite (st : OrgState) (p dst : FPath) (frec : FileRec)
    (hp : st.fs.fileAt p = some frec)
    (hocc : (st.fs.fileAt dst).isSome = true)
    (hnd : st.fs.isDirAt dst = false)
    (hne : p ≠ dst)
    (hnil : dst ≠ []) :
    (relocate false st p dst).moved_count = st.moved_count + 1
      ∧ (relocate false st p dst).error_count = st.error_count
      ∧ (relocate false st p dst).events = st.events ++ [Event.moveLine p dst]
      ∧ (relocate false st p dst).fs.fileAt dst = some ⟨dst, frec.stat⟩
      ∧ (relocate false st p dst).fs.fileAt p = none
      ∧ (∀ f ∈ (relocate false st p dst).fs.files, f.path = dst → f.stat = frec.stat)
      ∧ st.fs.copyFile p dst = some (st.fs.putFile dst frec.stat) := by
  have hlast : dst.dropLast.length < dst.length := by
    rw [List.length_dropLast]
    have := List.length_pos.mpr hnil
    omega
  have hfalse := mkdirParents_isDirAt_longer st.fs dst.dropLast dst hnd hlast
  have hmv : (st.fs.mkdirParents dst.dropLast).moveFile p dst
      = some (((st.fs.mkdirParents dst.dropLast).removeFileAt p).putFile dst frec.stat) := by
    unfold FS.moveFile
    rw [mkdirParents_fileAt, hp, hfalse]
    rfl
  have hstep : relocate false st p dst
      = { st with fs := ((st.fs.mkdirParents dst.dropLast).removeFileAt p).putFile dst frec.stat,
                  moved_count := st.moved_count + 1,
                  events := st.events ++ [Event.moveLine p dst] } := by
    unfold relocate
    rw [if_neg hne]
    show (match (st.fs.mkdirParents dst.dropLast).moveFile p dst with
      | some fs2 =>
          ({ st with fs := fs2, moved_count := st.moved_count + 1,
                     events := st.events ++ [Event.moveLine p dst] } : OrgState)
      | none =>
          { st with fs := st.fs.mkdirParents dst.dropLast,
                    error_count := st.error_count + 1,
                    events := st.events ++ [Event.moveLine p dst, Event.errLine p] }) = _
    rw [hmv]
  have hcopy : st.fs.copyFile p dst = some (st.fs.putFile dst frec.stat) := by
    unfold FS.copyFile
    rw [hp]
    simp [hnd]
  refine ⟨by rw [hstep], by rw [hstep], by rw [hstep], ?_, ?_, ?_, hcopy⟩
  · rw [hstep]
    exact putFile_fileAt_self _ dst frec.stat
  · rw [hstep]
    exact putFile_fileAt_ne _ p dst frec.stat hne
      (removeFileAt_fileAt_self (st.fs.mkdirParents dst.dropLast) p)
  · rw [hstep]
    exact putFile_unique _ dst frec.stat

/-- C10 witness: on the concrete state whose destination `s/2020/a` is
occupied by a 1999 file, relocating `s/a` overwrites it: the
destination now carries the 2020 record, no error is counted. -/
theorem C10_witness :
    (relocate false stOccupied ["s", "a"] ["s", "2020", "a"]).error_count
        = stOccupied.error_count
      ∧ (relocate false stOccupied ["s", "a"] ["s", "2020", "a"]).fs.fileAt
          ["s", "2020", "a"] = some ⟨["s", "2020", "a"], some 2020⟩ := by
  have h := C10_silent_overwrite stOccupied ["s", "a"] ["s", "2020", "a"]
    ⟨["s", "a"], some 2020⟩ (by decide) (by decide) (by decide) (by decide) (by decide)
  exact ⟨h.2.1, h.2.2.2.1⟩

/-! ### Claim C3: processing-phase lemmas -/

/-- A successful lookup returns a member record with the looked-up
path. -/
theorem fileAt_mem (fs : FS) (p : FPath) (f : FileRec) (h : fs.fileAt p = some f) :
    f ∈ fs.files ∧ f.path = p := by
  refine ⟨List.mem_of_find?_eq_some h, ?_⟩
  have h2 := List.find?_some h
  exact beq_iff_eq.mp h2

/-- A successful move never changes the set of directories. -/
theorem moveFile_dirs (fs : FS) (p dst : FPath) (fs2 : FS)
    (hm : fs.moveFile p dst = some fs2) : fs2.dirs = fs.dirs := by
  unfold FS.moveFile at hm
  cases hfa : fs.fileAt p with
  | none => rw [hfa] at hm; exact absurd hm (by simp)
  | some f =>
    rw [hfa] at hm
    dsimp only at hm
    split at hm
    · split at hm
      · exact absurd hm (by simp)
      · rw [← Option.some_inj.mp hm]
        rfl
    · rw [← Option.some_inj.mp hm]
      rfl

/-- A relocation never removes a directory. -/
theorem relocate_dirs_sub (dy : Bool) (st : OrgState) (p dst q : FPath)
    (h : q ∈ st.fs.dirs) : q ∈ (relocate dy st p dst).fs.dirs := by
  unfold relocate
  split
  · exact h
  · split
    · exact h
    · cases hm : (st.fs.mkdirParents dst.dropLast).moveFile p dst with
      | some fs2 =>
        simp only [hm]
        rw [moveFile_dirs (st.fs.mkdirParents dst.dropLast) p dst fs2 hm]
        exact List.mem_append.mpr (Or.inl h)
      | none =>
        simp only [hm]
        exact List.mem_append.mpr (Or.inl h)

/-- Processing a file never removes a directory. -/
theorem processOne_dirs_sub (src : FPath) (d : Bool) (st : OrgState) (p q : FPath)
    (h : q ∈ st.fs.dirs) : q ∈ (processOne src d st p).fs.dirs := by
  unfold processOne
  cases hc : get_file_creation_date st.fs p with
  | none => exact h
  | some y => exact relocate_dirs_sub d st p _ q h

/-- The whole processing loop never removes a directory. -/
theorem org_fold_dirs_sub (src : FPath) (d : Bool) :
    ∀ (l : List FPath) (st : OrgState) (q : FPath),
      q ∈ st.fs.dirs → q ∈ (l.foldl (processOne src d) st).fs.dirs := by
  intro l
  induction l with
  | nil => intro st q h; exact h
  | cons x xs ih =>
    intro st q h
    rw [List.foldl_cons]
    exact ih _ q (processOne_dirs_sub src d st x q h)

/-- The destination computed for a file below the source lies inside
the top-level year directory named by its year string: it is pruned on
a later scan whenever the year renders as a 4-digit name. -/
theorem prunedTop_destPath (src p : FPath) (y : Nat)
    (hy : isYearName (toString y) = true) (hu : underDir src p = true) :
    prunedTop src (destPath src y p) = true := by
  unfold prunedTop destPath
  have h1 : (src ++ [toString y] ++ p.drop src.length).drop src.length
      = toString y :: p.drop src.length := by
    rw [List.append_assoc]
    exact List.drop_left src _
  rw [h1]
  cases hr : p.drop src.length with
  | nil =>
    exfalso
    rcases Bool.and_eq_true_iff.mp hu with ⟨hlt, _⟩
    have h2 := congrArg List.length hr
    rw [List.length_drop] at h2
    simp at h2 hlt
    omega
  | cons a as => exact hy

/-- Same, for the move-into-directory fallback target
destination/basename. -/
theorem prunedTop_destPath_concat (src p : FPath) (y : Nat) (x : String)
    (hy : isYearName (toString y) = true) :
    prunedTop src (destPath src y p ++ [x]) = true := by
  unfold prunedTop destPath
  have h1 : ((src ++ [toString y] ++ p.drop src.length) ++ [x]).drop src.length
      = toString y :: (p.drop src.length ++ [x]) := by
    rw [List.append_assoc, List.append_assoc]
    exact List.drop_left src _
  rw [h1]
  cases p.drop src.length with
  | nil => exact hy
  | cons a as => exact hy

/-- Where the records of a post-move tree come from: each is an
untouched record of the old tree away from the source path, or the
moved record at the destination, or the moved record at
destination/basename. -/
theorem moveFile_mem (fs : FS) (p dst : FPath) (fs2 : FS) (f0 : FileRec)
    (hf : fs.fileAt p = some f0) (hm : fs.moveFile p dst = some fs2) :
    ∀ g ∈ fs2.files, (g ∈ fs.files ∧ g.path ≠ p)
      ∨ g = ⟨dst, f0.stat⟩ ∨ g = ⟨dst ++ [lastName p], f0.stat⟩ := by
  intro g hg
  unfold FS.moveFile at hm
  rw [hf] at hm
  dsimp only at hm
  split at hm
  · split at hm
    · exact absurd hm (by simp)
    · rw [← Option.some_inj.mp hm] at hg
      rcases List.mem_append.mp hg with h1 | h1
      · rcases List.mem_filter.mp h1 with ⟨h2, _⟩
        rcases List.mem_filter.mp h2 with ⟨h3, h4⟩
        rw [bne_iff_ne] at h4
        exact Or.inl ⟨h3, h4⟩
      · exact Or.inr (Or.inr (List.mem_singleton.mp h1))
  · rw [← Option.some_inj.mp hm] at hg
    rcases List.mem_append.mp hg with h1 | h1
    · rcases List.mem_filter.mp h1 with ⟨h2, _⟩
      rcases List.mem_filter.mp h2 with ⟨h3, h4⟩
      rw [bne_iff_ne] at h4
      exact Or.inl ⟨h3, h4⟩
    · exact Or.inr (Or.inl (List.mem_singleton.mp h1))

/-- The non-dry relocation as one equation on the underlying move. -/
theorem relocate_nondry_eq (st : OrgState) (p dst : FPath) (hne : p ≠ dst) :
    relocate false st p dst
      = match (st.fs.mkdirParents dst.dropLast).moveFile p dst with
        | some fs2 =>
            { st with fs := fs2, moved_count := st.moved_count + 1,
                      events := st.events ++ [Event.moveLine p dst] }
        | none =>
            { st with fs := st.fs.mkdirParents dst.dropLast,
                      error_count := st.error_count + 1,
                      events := st.events ++ [Event.moveLine p dst, Event.errLine p] } := by
  unfold relocate
  rw [if_neg hne]
  rfl

/-- A tree with no unpruned file below the source snapshots to the
empty work list. -/
theorem filesToProcess_nil (fs : FS) (src : FPath)
    (h : ∀ g ∈ fs.files, underDir src g.path = true → prunedTop src g.path = false → False) :
    filesToProcess fs src = [] := by
  unfold filesToProcess
  rw [List.map_eq_nil, List.filter_eq_nil]
  intro g hg hb
  rcases Bool.and_eq_true_iff.mp hb with ⟨h1, h2⟩
  rw [Bool.not_eq_true'] at h2
  exact h g hg h1 h2

/-- Main invariant of an error-free non-dry processing phase of
disk_date_separator: provided every file below the source has a 4-digit
year string, after the loop no file below the source sits outside a
top-level year directory — every snapshotted file was moved under its
year directory and nothing was moved anywhere else. -/
theorem org_fold_pruned (src : FPath) (fs0 : FS)
    (H4 : ∀ f ∈ fs0.files, underDir src f.path = true → yearOk f = true) :
    ∀ (rest : List FPath) (st : OrgState),
      (∀ g ∈ st.fs.files, g ∈ fs0.files ∨ prunedTop src g.path = true) →
      (∀ g ∈ st.fs.files, underDir src g.path = true → prunedTop src g.path = false →
        g.path ∈ rest) →
      (∀ q ∈ rest, underDir src q = true) →
      (∀ q ∈ rest, prunedTop src q = false) →
      (rest.foldl (processOne src false) st).error_count = st.error_count →
      ∀ g ∈ (rest.foldl (processOne src false) st).fs.files,
        underDir src g.path = true → prunedTop src g.path = false → False := by
  intro rest
  induction rest with
  | nil =>
    intro st hA hB hC hD hE g hg hu hnp
    exact absurd (hB g hg hu hnp) (List.not_mem_nil _)
  | cons p rest ih =>
    intro st hA hB hC hD hE
    rw [List.foldl_cons] at hE ⊢
    have hEe : (processOne src false st p).error_count = st.error_count := by
      have h1 := processOne_errors_le src false st p
      have h2 := org_fold_errors_le src false rest (processOne src false st p)
      omega
    cases hc : get_file_creation_date st.fs p with
    | none =>
      exfalso
      have h3 : (processOne src false st p).error_count = st.error_count + 1 := by
        unfold processOne
        rw [hc]
      omega
    | some y =>
      have hfa : ∃ f0, st.fs.fileAt p = some f0 ∧ f0.stat = some y := by
        unfold get_file_creation_date at hc
        cases hfa2 : st.fs.fileAt p with
        | none => rw [hfa2] at hc; exact absurd hc (by simp)
        | some f0 => rw [hfa2] at hc; exact ⟨f0, rfl, hc⟩
      rcases hfa with ⟨f0, hf0, hstat⟩
      rcases fileAt_mem st.fs p f0 hf0 with ⟨hf0mem, hf0path⟩
      have hup : underDir src p = true := hC p (List.mem_cons_self p rest)
      have hnpp : prunedTop src p = false := hD p (List.mem_cons_self p rest)
      have hf0fs0 : f0 ∈ fs0.files := by
        rcases hA f0 hf0mem with h1 | h1
        · exact h1
        · rw [hf0path, hnpp] at h1
          exact absurd h1 (by decide)
      have hy : isYearName (toString y) = true := by
        have h1 := H4 f0 hf0fs0 (by rw [hf0path]; exact hup)
        unfold yearOk at h1
        rw [hstat] at h1
        exact h1
      have hstep : processOne src false st p = relocate false st p (destPath src y p) := by
        unfold processOne
        rw [hc]
      have hne : p ≠ destPath src y p := fun he => destPath_ne src y p he.symm
      rw [hstep] at hEe hE ⊢
      cases hm : (st.fs.mkdirParents (destPath src y p).dropLast).moveFile p
          (destPath src y p) with
      | none =>
        exfalso
        have h2 : (relocate false st p (destPath src y p)).error_count
            = st.error_count + 1 := by
          rw [relocate_nondry_eq st p _ hne, hm]
        omega
      | some fs2 =>
        have hrel : relocate false st p (destPath src y p)
            = { st with fs := fs2,
                        moved_count := st.moved_count + 1,
                        events := st.events ++ [Event.moveLine p (destPath src y p)] } := by
          rw [relocate_nondry_eq st p _ hne, hm]
        rw [hrel] at hE ⊢
        have hmem := moveFile_mem (st.fs.mkdirParents (destPath src y p).dropLast) p
          (destPath src y p) fs2 f0 hf0 hm
        refine ih { st with fs := fs2,
                            moved_count := st.moved_count + 1,
                            events := st.events ++ [Event.moveLine p (destPath src y p)] }
          ?_ ?_ (fun q hq => hC q (List.mem_cons_of_mem p hq))
          (fun q hq => hD q (List.mem_cons_of_mem p hq)) hE
        · intro g hg
          rcases hmem g hg with ⟨hgold, hgne⟩ | hgd | hgr
          · exact hA g hgold
          · refine Or.inr ?_
            have h3 : prunedTop src (destPath src y p) = true :=
              prunedTop_destPath src p y hy hup
            rw [hgd]
            exact h3
          · refine Or.inr ?_
            have h3 : prunedTop src (destPath src y p ++ [lastName p]) = true :=
              prunedTop_destPath_concat src p y (lastName p) hy
            rw [hgr]
            exact h3
        · intro g hg hu2 hnp2
          rcases hmem g hg with ⟨hgold, hgne⟩ | hgd | hgr
          · have h3 := hB g hgold hu2 hnp2
            rcases List.mem_cons.mp h3 with h4 | h4
            · exact absurd h4 hgne
            · exact h4
          · exfalso
            have h3 : prunedTop src (destPath src y p) = false := by
              rw [hgd] at hnp2
              exact hnp2
            rw [prunedTop_destPath src p y hy hup] at h3
            exact absurd h3 (by decide)
          · exfalso
            have h3 : prunedTop src (destPath src y p ++ [lastName p]) = false := by
              rw [hgr] at hnp2
              exact hnp2
            rw [prunedTop_destPath_concat src p y (lastName p) hy] at h3
            exact absurd h3 (by decide)

/-! ### Claim C3: reconciliation lemmas -/

/-- The bottom-up order sorts by decreasing path length. -/
theorem cleanupOrder_sorted (fs : FS) (root : FPath) :
    List.Pairwise (fun a b : FPath => b.length ≤ a.length) (cleanupOrder fs root) := by
  unfold cleanupOrder
  have h := List.sorted_mergeSort
    (fun (a b c : FPath) (h1 : Nat.ble b.length a.length = true)
        (h2 : Nat.ble c.length b.length = true) => by
      rw [Nat.ble_eq] at h1 h2 ⊢
      omega)
    (fun (a b : FPath) => by
      simp only [Bool.or_eq_true_iff, Nat.ble_eq]
      omega)
    (fs.dirs.filter (fun d => underDir root d))
  exact h.imp (fun hab => by rw [Nat.ble_eq] at hab; exact hab)

/-- Membership in the bottom-up order. -/
theorem mem_cleanupOrder (fs : FS) (root d : FPath) :
    d ∈ cleanupOrder fs root ↔ d ∈ fs.dirs ∧ underDir root d = true := by
  unfold cleanupOrder
  rw [List.mem_mergeSort, List.mem_filter]

/-- A non-empty os.listdir exhibits a direct child file or directory. -/
theorem listdir_false_cases (fs : FS) (d : FPath) (h : listdirIsEmpty fs d = false) :
    (∃ f ∈ fs.files, f.path.length = d.length + 1 ∧ f.path.take d.length = d)
      ∨ (∃ c ∈ fs.dirs, c.length = d.length + 1 ∧ c.take d.length = d) := by
  unfold listdirIsEmpty at h
  rcases Bool.and_eq_false_iff.mp h with h1 | h1
  · left
    rcases List.all_eq_false.mp h1 with ⟨f, hf, hp⟩
    simp at hp
    exact ⟨f, hf, hp⟩
  · right
    rcases List.all_eq_false.mp h1 with ⟨c, hc, hp⟩
    simp at hp
    exact ⟨c, hc, hp⟩

/-- A direct child file makes os.listdir non-empty. -/
theorem listdir_false_of_file (fs : FS) (d : FPath) (f : FileRec) (hf : f ∈ fs.files)
    (h1 : f.path.length = d.length + 1) (h2 : f.path.take d.length = d) :
    listdirIsEmpty fs d = false := by
  unfold listdirIsEmpty
  rw [Bool.and_eq_false_iff]
  left
  rw [List.all_eq_false]
  refine ⟨f, hf, ?_⟩
  simp [h1, h2]

/-- A direct child directory makes os.listdir non-empty. -/
theorem listdir_false_of_dir (fs : FS) (d c : FPath) (hc : c ∈ fs.dirs)
    (h1 : c.length = d.length + 1) (h2 : c.take d.length = d) :
    listdirIsEmpty fs d = false := by
  unfold listdirIsEmpty
  rw [Bool.and_eq_false_iff]
  right
  rw [List.all_eq_false]
  refine ⟨c, hc, ?_⟩
  simp [h1, h2]

/-- A protected directory is skipped. -/
theorem rmdirStep_eq_protected (root : FPath) (acc : FS × List Event) (e : FPath)
    (h : protectedDir root e = true) : rmdirStep root acc e = acc := by
  unfold rmdirStep
  rw [if_pos h]

/-- A non-empty directory is kept. -/
theorem rmdirStep_eq_keep (root : FPath) (acc : FS × List Event) (e : FPath)
    (h2 : listdirIsEmpty acc.1 e = false) : rmdirStep root acc e = acc := by
  unfold rmdirStep
  split
  · rfl
  · simp [h2]

/-- An unprotected empty directory is removed, with one removal line. -/
theorem rmdirStep_eq_remove (root : FPath) (acc : FS × List Event) (e : FPath)
    (h1 : protectedDir root e = false) (h2 : listdirIsEmpty acc.1 e = true) :
    rmdirStep root acc e
      = (⟨acc.1.files, acc.1.dirs.filter (fun q => q != e)⟩,
          acc.2 ++ [Event.removeDirLine e]) := by
  unfold rmdirStep
  simp [h1, h2]

/-- After the bottom-up pass, every surviving unprotected directory
below the root is non-empty: the pass removed everything it was allowed
to remove. -/
theorem cleanup_fold_no_empty (root : FPath) :
    ∀ (L : List FPath) (acc : FS × List Event),
      List.Pairwise (fun a b : FPath => b.length ≤ a.length) L →
      (∀ d, d ∈ acc.1.dirs → underDir root d = true → d ∉ L →
        ∀ x ∈ L, x.length ≤ d.length) →
      (∀ d, d ∈ acc.1.dirs → underDir root d = true → protectedDir root d = false →
        d ∉ L → listdirIsEmpty acc.1 d = false) →
      ∀ d, d ∈ (L.foldl (rmdirStep root) acc).1.dirs → underDir root d = true →
        protectedDir root d = false →
        listdirIsEmpty (L.foldl (rmdirStep root) acc).1 d = false := by
  intro L
  induction L with
  | nil =>
    intro acc _ _ hempty d hd hu hp
    exact hempty d hd hu hp (List.not_mem_nil d)
  | cons e L ih =>
    intro acc hP hlen hempty
    rw [List.foldl_cons]
    rcases List.pairwise_cons.mp hP with ⟨hPe, hPL⟩
    refine ih (rmdirStep root acc e) hPL ?_ ?_
    · intro d hd hu hdL x hx
      by_cases hde : d = e
      · rw [hde]
        exact hPe x hx
      · have hd0 := rmdirStep_dirs_sub root acc e d hd
        have hnotin : d ∉ e :: L := by
          intro hmem
          rcases List.mem_cons.mp hmem with h1 | h1
          · exact hde h1
          · exact hdL h1
        exact hlen d hd0 hu hnotin x (List.mem_cons_of_mem e hx)
    · intro d hd hu hp hdL
      have hd0 := rmdirStep_dirs_sub root acc e d hd
      by_cases hde : d = e
      · rw [hde] at hd hp ⊢
        by_cases hemp : listdirIsEmpty acc.1 e = true
        · exfalso
          rw [rmdirStep_eq_remove root acc e hp hemp] at hd
          have h5 : (e != e) = true := (List.mem_filter.mp hd).2
          rw [bne_self_eq_false] at h5
          exact absurd h5 (by decide)
        · have hemp2 : listdirIsEmpty acc.1 e = false := Bool.eq_false_iff.mpr hemp
          rw [rmdirStep_eq_keep root acc e hemp2]
          exact hemp2
      · have hnotin : d ∉ e :: L := by
          intro hmem
          rcases List.mem_cons.mp hmem with h1 | h1
          · exact hde h1
          · exact hdL h1
        have hemp0 : listdirIsEmpty acc.1 d = false := hempty d hd0 hu hp hnotin
        by_cases hprot : protectedDir root e = true
        · rw [rmdirStep_eq_protected root acc e hprot]
          exact hemp0
        · by_cases hempe : listdirIsEmpty acc.1 e = true
          · rw [rmdirStep_eq_remove root acc e (Bool.eq_false_iff.mpr hprot) hempe]
            rcases listdir_false_cases acc.1 d hemp0 with ⟨f, hf, hf1, hf2⟩ | ⟨c, hc, hc1, hc2⟩
            · exact listdir_false_of_file _ d f hf hf1 hf2
            · have hce : c ≠ e := by
                intro hceq
                have h5 := hlen d hd0 hu hnotin e (List.mem_cons_self e L)
                rw [hceq] at hc1
                omega
              refine listdir_false_of_dir _ d c ?_ hc1 hc2
              exact List.mem_filter.mpr ⟨hc, bne_iff_ne.mpr hce⟩
          · rw [rmdirStep_eq_keep root acc e (Bool.eq_false_iff.mpr hempe)]
            exact hemp0

/-- On a tree with no removable directory, the reconciliation pass is
the identity and prints nothing. -/
theorem cleanup_noop (fs : FS) (root : FPath)
    (h : ∀ d ∈ fs.dirs, underDir root d = true → protectedDir root d = false →
      listdirIsEmpty fs d = false) :
    cleanup_empty_dirs fs root = (fs, []) := by
  unfold cleanup_empty_dirs
  have hL : ∀ e ∈ cleanupOrder fs root, e ∈ fs.dirs ∧ underDir root e = true :=
    fun e he => (mem_cleanupOrder fs root e).mp he
  revert hL
  generalize cleanupOrder fs root = L
  intro hL
  induction L with
  | nil => rfl
  | cons e L ihL =>
    rw [List.foldl_cons]
    have hstep : rmdirStep root (fs, []) e = (fs, []) := by
      by_cases hprot : protectedDir root e = true
      · exact rmdirStep_eq_protected root (fs, []) e hprot
      · rcases hL e (List.mem_cons_self e L) with ⟨he1, he2⟩
        exact rmdirStep_eq_keep root (fs, []) e
          (h e he1 he2 (Bool.eq_false_iff.mpr hprot))
    rw [hstep]
    exact ihL (fun q hq => hL q (List.mem_cons_of_mem e hq))

/-- Reconciliation is idempotent: a second pass removes nothing. -/
theorem cleanup_idem (fs : FS) (root : FPath) :
    cleanup_empty_dirs (cleanup_empty_dirs fs root).1 root
      = ((cleanup_empty_dirs fs root).1, []) := by
  apply cleanup_noop
  intro d hd hu hp
  have hinit1 : ∀ d2, d2 ∈ (fs, ([] : List Event)).1.dirs → underDir root d2 = true →
      d2 ∉ cleanupOrder fs root → ∀ x ∈ cleanupOrder fs root, x.length ≤ d2.length := by
    intro d2 h1 h2 h3
    exact absurd ((mem_cleanupOrder fs root d2).mpr ⟨h1, h2⟩) h3
  have hinit2 : ∀ d2, d2 ∈ (fs, ([] : List Event)).1.dirs → underDir root d2 = true →
      protectedDir root d2 = false → d2 ∉ cleanupOrder fs root →
      listdirIsEmpty (fs, ([] : List Event)).1 d2 = false := by
    intro d2 h1 h2 _ h4
    exact absurd ((mem_cleanupOrder fs root d2).mpr ⟨h1, h2⟩) h4
  exact cleanup_fold_no_empty root (cleanupOrder fs root) (fs, [])
    (cleanupOrder_sorted fs root) hinit1 hinit2 d hd hu hp

/-- Decomposition of a non-dry run on an existing directory into its
processing state. -/
theorem organize_nondry_decomp (fs0 : FS) (src : FPath) (hdir : fs0.isDirAt src = true) :
    ∃ ST : OrgState,
      ST = (filesToProcess fs0 src).foldl (processOne src false)
          ⟨fs0, 0, 0, (skippedYearDirs fs0 src).map Event.skipYearDir
            ++ (filesToProcess fs0 src).map Event.discover⟩
        ∧ organize_files fs0 src false
          = ⟨(cleanup_empty_dirs ST.fs src).1, ST.moved_count, ST.error_count,
              ST.events ++ (cleanup_empty_dirs ST.fs src).2, 0⟩ :=
  ⟨_, rfl, organize_run_eq fs0 src false hdir⟩

/-! ### Claim C3 -/

/-- C3 counterexample: folder_year_organiser is not idempotent.  On the
concrete tree whose source directory is itself named `2020` and holds
one file from 2020, the first run moves the file to `p/2020/2020/a`,
which is back inside the walked tree; the second run — with no metadata
changed — discovers it again and performs one more move instead of
zero, nesting it one level deeper, so the final tree differs from the
tree after one run. -/
theorem C3_counterexample :
    (move_files 9 (move_files 9 fsNested ["p", "2020"] false false false).fs
        ["p", "2020"] false false false).moved_count = 1
      ∧ (move_files 9 (move_files 9 fsNested ["p", "2020"] false false false).fs
          ["p", "2020"] false false false).fs
        ≠ (move_files 9 fsNested ["p", "2020"] false false false).fs := by
  refine ⟨rfl, by decide⟩

/-- C3 (amended): disk_date_separator's organize_files is idempotent on
the runs the claim intends: if the directory exists, every file below
it has a year rendering as a 4-digit string, and the first run reports
zero errors, then a second consecutive run (metadata unchanged)
performs zero moves, reports zero errors, and leaves the tree exactly
as the first run left it.  folder_year_organiser's move_files is not
idempotent, per the counterexample; and without the zero-error proviso
even organize_files can move a file on the second run (a failed move
whose obstruction is swept away by the first run's reconciliation
succeeds on retry). -/
theorem C3_organize_idempotent (fs0 : FS) (src : FPath)
    (hdir : fs0.isDirAt src = true)
    (H4 : ∀ f ∈ fs0.files, underDir src f.path = true → yearOk f = true)
    (Herr : (organize_files fs0 src false).error_count = 0) :
    (organize_files (organize_files fs0 src false).fs src false).fs
        = (organize_files fs0 src false).fs
      ∧ (organize_files (organize_files fs0 src false).fs src false).moved_count = 0
      ∧ (organize_files (organize_files fs0 src false).fs src false).error_count = 0 := by
  obtain ⟨ST, hSTdef, hrun1⟩ := organize_nondry_decomp fs0 src hdir
  have herr : ST.error_count = 0 := by
    rw [hrun1] at Herr
    exact Herr
  have hnone : ∀ g ∈ ST.fs.files,
      underDir src g.path = true → prunedTop src g.path = false → False := by
    rw [hSTdef]
    refine org_fold_pruned src fs0 H4 (filesToProcess fs0 src) _ ?_ ?_ ?_ ?_ ?_
    · intro g hg
      exact Or.inl hg
    · intro g hg hu hnp
      exact (mem_filesToProcess fs0 src g.path).mpr ⟨g, hg, rfl, hu, hnp⟩
    · intro q hq
      rcases (mem_filesToProcess fs0 src q).mp hq with ⟨f, _, hfp, hu, _⟩
      rw [← hfp]
      exact hu
    · intro q hq
      rcases (mem_filesToProcess fs0 src q).mp hq with ⟨f, _, hfp, _, hnp⟩
      rw [← hfp]
      exact hnp
    · rw [← hSTdef]
      exact herr
  have hfs1 : (organize_files fs0 src false).fs = (cleanup_empty_dirs ST.fs src).1 := by
    rw [hrun1]
  have hfiles1 : (cleanup_empty_dirs ST.fs src).1.files = ST.fs.files :=
    cleanup_fold_files src (cleanupOrder ST.fs src) (ST.fs, [])
  have hT2 : filesToProcess (organize_files fs0 src false).fs src = [] := by
    apply filesToProcess_nil
    intro g hg hu hnp
    rw [hfs1, hfiles1] at hg
    exact hnone g hg hu hnp
  have hdir1 : (organize_files fs0 src false).fs.isDirAt src = true := by
    have h0 : src ∈ fs0.dirs := (contains_iff_mem fs0.dirs src).mp hdir
    have h1 : src ∈ ST.fs.dirs := by
      rw [hSTdef]
      exact org_fold_dirs_sub src false (filesToProcess fs0 src) _ src h0
    have h2 : src ∈ (cleanup_empty_dirs ST.fs src).1.dirs :=
      cleanup_fold_keeps_protected src (cleanupOrder ST.fs src) (ST.fs, []) src
        (protectedDir_self src) h1
    rw [hfs1]
    exact (contains_iff_mem _ src).mpr h2
  obtain ⟨ST2, hST2def, hrun2⟩ :=
    organize_nondry_decomp (organize_files fs0 src false).fs src hdir1
  rw [hT2] at hST2def
  have hm2 : ST2.moved_count = 0 := by rw [hST2def]; rfl
  have he2 : ST2.error_count = 0 := by rw [hST2def]; rfl
  have hfs2 : ST2.fs = (organize_files fs0 src false).fs := by rw [hST2def]; rfl
  refine ⟨?_, ?_, ?_⟩
  · rw [hrun2]
    show (cleanup_empty_dirs ST2.fs src).1 = (organize_files fs0 src false).fs
    rw [hfs2, hfs1, cleanup_idem]
  · rw [hrun2]
    exact hm2
  · rw [hrun2]
    exact he2

/-- C3 witness: a concrete error-free run on the one-file tree, then a
second run: same tree, zero moves, zero errors. -/
theorem C3_witness :
    (organize_files (organize_files fsPlain ["s"] false).fs ["s"] false).fs
        = (organize_files fsPlain ["s"] false).fs
      ∧ (organize_files (organize_files fsPlain ["s"] false).fs ["s"] false).moved_count = 0
      ∧ (organize_files (organize_files fsPlain ["s"] false).fs ["s"] false).error_count = 0 :=
  C3_organize_idempotent fsPlain ["s"] (by decide) (by decide) (by decide)
